import Mathlib

/-!
Verification of the VaultNote worker backend (`src/worker/entities.ts`):
data model (user and note records), the entity store, the authentication
middleware and the route handlers for register, login, note create /
update / delete and password change.

The password digest function (`createHash`, SHA-256 via Web Crypto) is
modelled as an abstract parameter `hash : String → String`; no claim
depends on its concrete values, only on equality / inequality of digests.
-/

/-- A JSON value as far as the handlers inspect request bodies: the
handlers only ever test `typeof v === 'string'` and extract strings, so
the remaining JSON shapes are collapsed into tagged alternatives. -/
inductive JVal where
  | str (s : String)
  | num (n : Int)
  | boolean (b : Bool)
  | jnull
  | obj
deriving DecidableEq, Repr

/-- The note record (`Note` in `shared/types.ts`). -/
structure Note where
  id : String
  title : String
  content : String
  userId : String
  createdAt : String
  updatedAt : String
deriving DecidableEq, Repr

/-- The user record stored in the Durable Object
(`UserRecord` in `worker/entities.ts`). -/
structure UserRecord where
  id : String
  username : String
  passwordHash : String
  noteIds : List String
deriving DecidableEq, Repr

/-- `UserEntity.initialState` from `worker/entities.ts`. -/
def userInitialState : UserRecord :=
  { id := "", username := "", passwordHash := "", noteIds := [] }

/-- Modelled from the spec: the single shared storage partition of the
entity store abstraction (`core-utils.ts` is not part of the sources),
holding the user records keyed by lowercased username and the note
records keyed by note id. An absent key maps to `none`. -/
structure Store where
  users : String → Option UserRecord
  notes : String → Option Note

/-- The empty storage partition. -/
def emptyStore : Store := ⟨fun _ => none, fun _ => none⟩

/-- Modelled from the spec: storing a user record under its key
(the write part of `create` / `mutate`). -/
def Store.putUser (st : Store) (k : String) (u : UserRecord) : Store :=
  { st with users := fun q => if q = k then some u else st.users q }

/-- Modelled from the spec: storing a note record under its key. -/
def Store.putNote (st : Store) (k : String) (n : Note) : Store :=
  { st with notes := fun q => if q = k then some n else st.notes q }

/-- Modelled from the spec: `delete` removes the note record; deleting
an absent key is not an error at this layer. -/
def Store.delNote (st : Store) (k : String) : Store :=
  { st with notes := fun q => if q = k then none else st.notes q }

/-- Modelled from the spec: `mutate` on a user entity reads the current
value (the entity's initial state when the key is absent, matching
`ensureState`), applies the transform and writes the result back. -/
def Store.mutUser (st : Store) (k : String) (f : UserRecord → UserRecord) : Store :=
  st.putUser k (f ((st.users k).getD userInitialState))

/-- First-occurrence deduplication of a list, the semantics of the
JavaScript `[...new Set(list)]` idiom used by `UserEntity.addNoteId`. -/
def jsSetDedup : List String → List String
  | [] => []
  | x :: xs => x :: jsSetDedup (xs.filter (fun y => y != x))
termination_by l => l.length
decreasing_by
  simp only [List.length_cons]
  exact Nat.lt_succ_of_le (List.length_filter_le _ _)

/-- `UserEntity.addNoteId`: append the id and deduplicate
(`noteIds: [...new Set([...(s.noteIds || []), noteId])]`). -/
def UserRecord.addNoteId (s : UserRecord) (noteId : String) : UserRecord :=
  { s with noteIds := jsSetDedup (s.noteIds ++ [noteId]) }

/-- `UserEntity.removeNoteId`:
`noteIds: (s.noteIds || []).filter(id => id !== noteId)`. -/
def UserRecord.removeNoteId (s : UserRecord) (noteId : String) : UserRecord :=
  { s with noteIds := s.noteIds.filter (fun id => id != noteId) }

/-- `UserEntity.updatePasswordHash`: `{ ...s, passwordHash: newHash }`. -/
def UserRecord.updatePasswordHash (s : UserRecord) (newHash : String) : UserRecord :=
  { s with passwordHash := newHash }

/-- Store-level `user.addNoteId(noteId)` (a `mutate` on the user entity). -/
def Store.addNoteId (st : Store) (userId noteId : String) : Store :=
  st.mutUser userId (fun s => s.addNoteId noteId)

/-- Store-level `user.removeNoteId(noteId)`. -/
def Store.removeNoteId (st : Store) (userId noteId : String) : Store :=
  st.mutUser userId (fun s => s.removeNoteId noteId)

/-- Store-level `user.updatePasswordHash(newHash)`. -/
def Store.updatePasswordHash (st : Store) (userId newHash : String) : Store :=
  st.mutUser userId (fun s => s.updatePasswordHash newHash)

/-- JavaScript's `username.toLowerCase()`, modelled characterwise over
the string's characters. -/
def lowerString (s : String) : String := String.mk (s.data.map Char.toLower)

/-- Modelled from the spec: `isStr` from `core-utils.ts` tests that a
(possibly absent) request-body value is a string. -/
def isStr : Option JVal → Bool
  | some (JVal.str _) => true
  | _ => false

/-- Failure of the authentication middleware: `bad` (HTTP 400) or
`notFound` (HTTP 404), each carrying its message. -/
inductive AuthErr where
  | badReq (msg : String)
  | notFound (msg : String)
deriving DecidableEq, Repr

/-- The `authenticateUser` middleware of `worker/entities.ts`: parses
`username` / `password` from the body, resolves the user record by
lowercased username, checks the stored digest against the digest of the
supplied password, and on success exposes the user id and the resolved
user record. -/
def authenticateUser (hash : String → String) (st : Store)
    (username password : Option JVal) : Except AuthErr (String × UserRecord) :=
  match username, password with
  | some (JVal.str u), some (JVal.str p) =>
    let userId := lowerString u
    match st.users userId with
    | none => Except.error (AuthErr.notFound "Kullanıcı bulunamadı veya şifre yanlış.")
    | some user =>
      if user.passwordHash ≠ hash p then
        Except.error (AuthErr.badReq "Kullanıcı bulunamadı veya şifre yanlış.")
      else
        Except.ok (userId, user)
  | _, _ => Except.error (AuthErr.badReq "Kimlik bilgileri gereklidir.")

/-- Outcome of `POST /api/auth/register`. -/
inductive RegisterResult where
  | ok
  | badReq (msg : String)
deriving DecidableEq, Repr

/-- The `POST /api/auth/register` handler: validates the input lengths,
rejects an already-taken lowercased username, otherwise creates the user
record keyed by the lowercased username with the password digest and an
empty note-id list. -/
def register (hash : String → String) (st : Store)
    (username password : Option JVal) : RegisterResult × Store :=
  match username, password with
  | some (JVal.str u), some (JVal.str p) =>
    if u.length < 3 then (RegisterResult.badReq "Kullanıcı adı en az 3 karakter olmalıdır.", st)
    else if p.length < 6 then (RegisterResult.badReq "Şifre en az 6 karakter olmalıdır.", st)
    else
      let userId := lowerString u
      match st.users userId with
      | some _ => (RegisterResult.badReq "Bu kullanıcı adı zaten alınmış.", st)
      | none =>
        (RegisterResult.ok,
         st.putUser userId
           { id := userId, username := u, passwordHash := hash p, noteIds := [] })
  | _, _ => (RegisterResult.badReq "Kullanıcı adı ve şifre gereklidir.", st)

/-- Outcome of `POST /api/auth/login`. -/
inductive LoginResult where
  | ok (username : String) (notes : List Note)
  | badReq (msg : String)
  | notFound (msg : String)
deriving DecidableEq, Repr

/-- The `POST /api/auth/login` handler: same credential checks as the
middleware, then hydrates each id of the user's `noteIds` to its note
record and drops the entries that do not resolve
(`notes.filter(Boolean)` over the per-id lookups). -/
def login (hash : String → String) (st : Store)
    (username password : Option JVal) : LoginResult :=
  match username, password with
  | some (JVal.str u), some (JVal.str p) =>
    let userId := lowerString u
    match st.users userId with
    | none => LoginResult.notFound "Kullanıcı bulunamadı veya şifre yanlış."
    | some user =>
      if user.passwordHash ≠ hash p then
        LoginResult.badReq "Kullanıcı bulunamadı veya şifre yanlış."
      else
        LoginResult.ok user.username (user.noteIds.filterMap st.notes)
  | _, _ => LoginResult.badReq "Kullanıcı adı ve şifre gereklidir."

/-- Outcome of `POST /api/notes` (create note). -/
inductive CreateNoteResult where
  | ok (note : Note)
  | authFail (e : AuthErr)
  | alreadyExists
deriving DecidableEq, Repr

/-- The `POST /api/notes` handler (behind `authenticateUser`): builds the
new note with the generated id `noteId` and the current timestamp `now`
(both supplied by the environment: `crypto.randomUUID()` and
`new Date().toISOString()`), persists it via `NoteEntity.create` (which
fails when the key already exists), then appends the id to the owner's
`noteIds`. -/
def createNote (hash : String → String) (st : Store)
    (username password : Option JVal) (noteId now : String) :
    CreateNoteResult × Store :=
  match authenticateUser hash st username password with
  | Except.error e => (CreateNoteResult.authFail e, st)
  | Except.ok (userId, _user) =>
    let newNote : Note :=
      { id := noteId, title := "İsimsiz Not",
        content := "Yeni notunuzu buraya yazın...",
        userId := userId, createdAt := now, updatedAt := now }
    match st.notes noteId with
    | some _ => (CreateNoteResult.alreadyExists, st)
    | none =>
      let st1 := st.putNote noteId newNote
      let st2 := st1.addNoteId userId noteId
      (CreateNoteResult.ok newNote, st2)

/-- Outcome of `PUT /api/notes/:noteId`. -/
inductive UpdateResult where
  | ok (note : Note)
  | authFail (e : AuthErr)
  | notFound (msg : String)
  | forbidden (msg : String)
deriving DecidableEq, Repr

/-- The `PUT /api/notes/:noteId` handler (behind `authenticateUser`):
404 when the note does not exist, 403 when its `userId` differs from
the authenticated user, otherwise patches in `title` / `content` when
they are strings (`...(typeof title === 'string' && { title })`) and
always refreshes `updatedAt` to `now`. -/
def updateNote (hash : String → String) (st : Store)
    (username password : Option JVal) (noteId : String)
    (title content : Option JVal) (now : String) : UpdateResult × Store :=
  match authenticateUser hash st username password with
  | Except.error e => (UpdateResult.authFail e, st)
  | Except.ok (userId, _user) =>
    match st.notes noteId with
    | none => (UpdateResult.notFound "Not bulunamadı.", st)
    | some noteState =>
      if noteState.userId ≠ userId then
        (UpdateResult.forbidden "Yetkisiz işlem.", st)
      else
        let patched : Note :=
          { noteState with
            title := match title with
              | some (JVal.str t) => t
              | _ => noteState.title,
            content := match content with
              | some (JVal.str c) => c
              | _ => noteState.content,
            updatedAt := now }
        (UpdateResult.ok patched, st.putNote noteId patched)

/-- Outcome of `DELETE /api/notes/:noteId`. -/
inductive DeleteResult where
  | ok
  | authFail (e : AuthErr)
  | notFound (msg : String)
  | forbidden (msg : String)
deriving DecidableEq, Repr

/-- The `DELETE /api/notes/:noteId` handler (behind `authenticateUser`):
404 when the note does not exist, 403 when its `userId` differs from the
authenticated user, otherwise deletes the note record and removes the id
from the owner's `noteIds`. -/
def deleteNote (hash : String → String) (st : Store)
    (username password : Option JVal) (noteId : String) :
    DeleteResult × Store :=
  match authenticateUser hash st username password with
  | Except.error e => (DeleteResult.authFail e, st)
  | Except.ok (userId, _user) =>
    match st.notes noteId with
    | none => (DeleteResult.notFound "Not bulunamadı.", st)
    | some noteState =>
      if noteState.userId ≠ userId then
        (DeleteResult.forbidden "Yetkisiz işlem.", st)
      else
        let st1 := st.delNote noteId
        let st2 := st1.removeNoteId userId noteId
        (DeleteResult.ok, st2)

/-- Outcome of `PUT /api/user/password`. -/
inductive ChangePwResult where
  | ok
  | authFail (e : AuthErr)
  | badReq (msg : String)
deriving DecidableEq, Repr

/-- The `PUT /api/user/password` handler (behind `authenticateUser`):
rejects a non-string or shorter-than-6 `newPassword`, otherwise replaces
the stored digest by the digest of the new password. -/
def changePassword (hash : String → String) (st : Store)
    (username password newPassword : Option JVal) : ChangePwResult × Store :=
  match authenticateUser hash st username password with
  | Except.error e => (ChangePwResult.authFail e, st)
  | Except.ok (userId, _user) =>
    match newPassword with
    | some (JVal.str np) =>
      if np.length < 6 then
        (ChangePwResult.badReq "Yeni şifre en az 6 karakter olmalıdır.", st)
      else
        (ChangePwResult.ok, st.updatePasswordHash userId (hash np))
    | _ => (ChangePwResult.badReq "Yeni şifre en az 6 karakter olmalıdır.", st)

/-- Membership is preserved by the JS-set deduplication. -/
theorem jsSetDedup_mem {a : String} : ∀ {l : List String}, a ∈ jsSetDedup l ↔ a ∈ l := by
  intro l
  induction l using jsSetDedup.induct with
  | case1 => simp [jsSetDedup]
  | case2 x xs ih =>
    rw [jsSetDedup]
    simp only [List.mem_cons, ih, List.mem_filter, bne_iff_ne, ne_eq]
    by_cases h : a = x <;> simp [h]

/-- The JS-set deduplication always yields a duplicate-free list. -/
theorem jsSetDedup_nodup : ∀ (l : List String), (jsSetDedup l).Nodup := by
  intro l
  induction l using jsSetDedup.induct with
  | case1 => simp [jsSetDedup]
  | case2 x xs ih =>
    rw [jsSetDedup]
    refine List.nodup_cons.mpr ⟨?_, ih⟩
    intro hx
    have hmem := jsSetDedup_mem.mp hx
    simp [List.mem_filter] at hmem

/-- The JS-set deduplication fixes duplicate-free lists. -/
theorem jsSetDedup_eq_self : ∀ {l : List String}, l.Nodup → jsSetDedup l = l := by
  intro l
  induction l using jsSetDedup.induct with
  | case1 => intro; simp [jsSetDedup]
  | case2 x xs ih =>
    intro h
    have hx : x ∉ xs := (List.nodup_cons.mp h).1
    have hxs : xs.Nodup := (List.nodup_cons.mp h).2
    have hfe : xs.filter (fun y => y != x) = xs := by
      refine List.filter_eq_self.mpr ?_
      intro a ha
      simp only [bne_iff_ne, ne_eq, decide_eq_true_eq]
      rintro rfl
      exact hx ha
    have hrec := ih (by rw [hfe]; exact hxs)
    rw [hfe] at hrec
    rw [jsSetDedup, hfe, hrec]

/-- Appending one element then deduplicating: a present element is
absorbed, a fresh one lands at the end. -/
theorem jsSetDedup_append_singleton : ∀ (l : List String) (i : String),
    jsSetDedup (l ++ [i])
      = if i ∈ l then jsSetDedup l else jsSetDedup l ++ [i] := by
  intro l
  induction l using jsSetDedup.induct with
  | case1 =>
    intro i
    simp [jsSetDedup]
  | case2 x xs ih =>
    intro i
    have hstep : (x :: xs) ++ [i] = x :: (xs ++ [i]) := rfl
    rw [hstep, jsSetDedup, jsSetDedup]
    by_cases hix : i = x
    · subst hix
      have hfil : (xs ++ [i]).filter (fun y => y != i) = xs.filter (fun y => y != i) := by
        simp [List.filter_append]
      rw [hfil]
      simp
    · have hfil : (xs ++ [i]).filter (fun y => y != x)
          = xs.filter (fun y => y != x) ++ [i] := by
        simp [List.filter_append, hix]
      rw [hfil, ih i]
      have hmemf : i ∈ xs.filter (fun y => y != x) ↔ i ∈ xs := by
        simp [List.mem_filter, hix]
      by_cases hmem : i ∈ xs
      · rw [if_pos (hmemf.mpr hmem), if_pos (by simp [hmem])]
      · rw [if_neg (fun hc => hmem (hmemf.mp hc)),
          if_neg (by simp [hmem, hix])]
        simp

/-- `addNoteId` never introduces duplicates. -/
theorem addNoteId_nodup (u : UserRecord) (i : String) :
    (u.addNoteId i).noteIds.Nodup :=
  jsSetDedup_nodup _

/-- Adding an id that is already present leaves a duplicate-free
`noteIds` unchanged. -/
theorem addNoteId_of_mem {u : UserRecord} {i : String}
    (hnd : u.noteIds.Nodup) (h : i ∈ u.noteIds) :
    (u.addNoteId i).noteIds = u.noteIds := by
  show jsSetDedup (u.noteIds ++ [i]) = u.noteIds
  rw [jsSetDedup_append_singleton, if_pos h, jsSetDedup_eq_self hnd]

/-- Adding a fresh id appends it to a duplicate-free `noteIds`. -/
theorem addNoteId_of_not_mem {u : UserRecord} {i : String}
    (hnd : u.noteIds.Nodup) (h : i ∉ u.noteIds) :
    (u.addNoteId i).noteIds = u.noteIds ++ [i] := by
  show jsSetDedup (u.noteIds ++ [i]) = u.noteIds ++ [i]
  rw [jsSetDedup_append_singleton, if_neg h, jsSetDedup_eq_self hnd]

/-- `addNoteId` only touches `noteIds`. -/
theorem addNoteId_frame (u : UserRecord) (i : String) :
    (u.addNoteId i).id = u.id ∧ (u.addNoteId i).username = u.username ∧
      (u.addNoteId i).passwordHash = u.passwordHash :=
  ⟨rfl, rfl, rfl⟩

/-- A fold of note-creation index updates keeps `noteIds` duplicate-free. -/
theorem foldl_addNoteId_nodup : ∀ (ids : List String) (u : UserRecord),
    u.noteIds.Nodup → (List.foldl UserRecord.addNoteId u ids).noteIds.Nodup := by
  intro ids
  induction ids with
  | nil => intro u h; simpa using h
  | cons i rest ih =>
    intro u _
    simpa using ih (u.addNoteId i) (addNoteId_nodup u i)

/-- Folding fresh, pairwise-distinct ids into `noteIds` appends them all. -/
theorem foldl_addNoteId_fresh : ∀ (ids : List String) (u : UserRecord),
    u.noteIds.Nodup → ids.Nodup → (∀ i ∈ ids, i ∉ u.noteIds) →
    (List.foldl UserRecord.addNoteId u ids).noteIds = u.noteIds ++ ids := by
  intro ids
  induction ids with
  | nil => intro u _ _ _; simp
  | cons i rest ih =>
    intro u hu hids hfresh
    have hstep : (u.addNoteId i).noteIds = u.noteIds ++ [i] :=
      addNoteId_of_not_mem hu (hfresh i (by simp))
    have hnd2 : (u.addNoteId i).noteIds.Nodup := addNoteId_nodup u i
    have hrest : ∀ j ∈ rest, j ∉ (u.addNoteId i).noteIds := by
      intro j hj
      rw [hstep]
      simp only [List.mem_append, List.mem_singleton]
      rintro (hc | rfl)
      · exact hfresh j (by simp [hj]) hc
      · exact (List.nodup_cons.mp hids).1 hj
    have := ih (u.addNoteId i) hnd2 (List.nodup_cons.mp hids).2 hrest
    rw [List.foldl_cons, this, hstep, List.append_assoc]
    simp

/-- Sample digest function for concrete runs: the identity (any
deterministic digest works for the handlers' behaviour). -/
def hId : String → String := fun s => s

/-- Sample note owned by `alice`. -/
def noteA : Note :=
  { id := "n1", title := "t1", content := "c1", userId := "alice",
    createdAt := "2024-01-01T00:00:00Z", updatedAt := "2024-01-01T00:00:00Z" }

/-- Sample note owned by `bob`. -/
def noteB : Note :=
  { id := "n2", title := "t2", content := "c2", userId := "bob",
    createdAt := "2024-01-02T00:00:00Z", updatedAt := "2024-01-02T00:00:00Z" }

/-- Sample user `alice`; her `noteIds` holds one live id and one
dangling id. -/
def aliceU : UserRecord :=
  { id := "alice", username := "alice", passwordHash := "secret1",
    noteIds := ["n1", "gone"] }

/-- Sample store with `alice`, her live note and `bob`'s note. -/
def st1 : Store :=
  ((emptyStore.putUser "alice" aliceU).putNote "n1" noteA).putNote "n2" noteB

/-- C1: For every user whose credentials are correct, login returns
exactly the set of notes whose ids are in the user's `noteIds` and whose
note records still exist; a `noteIds` entry pointing to a missing note
record is silently dropped and never makes the login fail. -/
theorem C1_login_returns_exactly_existing_notes
    (hash : String → String) (st : Store) (u p : String) (user : UserRecord)
    (hu : st.users (lowerString u) = some user)
    (hp : user.passwordHash = hash p) :
    login hash st (some (JVal.str u)) (some (JVal.str p))
      = LoginResult.ok user.username (user.noteIds.filterMap st.notes) ∧
    ∀ n : Note, n ∈ user.noteIds.filterMap st.notes ↔
      ∃ i ∈ user.noteIds, st.notes i = some n := by
  constructor
  · simp [login, hu, hp]
  · intro n
    exact List.mem_filterMap

/-- Witness for C1: `alice`'s `noteIds` holds the live id `n1` and the
dangling id `gone`; login succeeds and returns exactly `[noteA]`. -/
theorem C1_witness :
    st1.users (lowerString "alice") = some aliceU ∧
    aliceU.passwordHash = hId "secret1" ∧
    aliceU.noteIds.filterMap st1.notes = [noteA] ∧
    login hId st1 (some (JVal.str "alice")) (some (JVal.str "secret1"))
      = LoginResult.ok aliceU.username (aliceU.noteIds.filterMap st1.notes) := by
  refine ⟨by decide, rfl, by decide, ?_⟩
  exact (C1_login_returns_exactly_existing_notes hId st1 "alice" "secret1" aliceU
    (by decide) rfl).1

/-- C2: the externally visible error message for an unknown username is
identical to the one for a wrong password, for the login handler and for
the authentication middleware guarding all authenticated requests. -/
theorem C2_unified_credential_error_message
    (hash : String → String) (st : Store) (u p u2 p2 : String) (user : UserRecord)
    (hmiss : st.users (lowerString u) = none)
    (hhit : st.users (lowerString u2) = some user)
    (hbad : user.passwordHash ≠ hash p2) :
    login hash st (some (JVal.str u)) (some (JVal.str p))
        = LoginResult.notFound "Kullanıcı bulunamadı veya şifre yanlış." ∧
    login hash st (some (JVal.str u2)) (some (JVal.str p2))
        = LoginResult.badReq "Kullanıcı bulunamadı veya şifre yanlış." ∧
    authenticateUser hash st (some (JVal.str u)) (some (JVal.str p))
        = Except.error (AuthErr.notFound "Kullanıcı bulunamadı veya şifre yanlış.") ∧
    authenticateUser hash st (some (JVal.str u2)) (some (JVal.str p2))
        = Except.error (AuthErr.badReq "Kullanıcı bulunamadı veya şifre yanlış.") := by
  refine ⟨?_, ?_, ?_, ?_⟩ <;> simp [login, authenticateUser, hmiss, hhit, hbad]

/-- Witness for C2: unknown user `carol` and `alice` with a wrong
password produce the same message. -/
theorem C2_witness :
    st1.users (lowerString "carol") = none ∧
    st1.users (lowerString "alice") = some aliceU ∧
    aliceU.passwordHash ≠ hId "wrong1" ∧
    login hId st1 (some (JVal.str "carol")) (some (JVal.str "pwpwpw"))
        = LoginResult.notFound "Kullanıcı bulunamadı veya şifre yanlış." ∧
    login hId st1 (some (JVal.str "alice")) (some (JVal.str "wrong1"))
        = LoginResult.badReq "Kullanıcı bulunamadı veya şifre yanlış." := by
  have h := C2_unified_credential_error_message hId st1 "carol" "pwpwpw" "alice" "wrong1"
    aliceU (by decide) (by decide) (by decide)
  exact ⟨by decide, by decide, by decide, h.1, h.2.1⟩

/-- Registering a username whose lowercased key is already present
never succeeds. -/
theorem register_taken_ne_ok (hash : String → String) (st : Store)
    (u2 p2 : String) (w : UserRecord)
    (hw : st.users (lowerString u2) = some w) :
    (register hash st (some (JVal.str u2)) (some (JVal.str p2))).1
      ≠ RegisterResult.ok := by
  by_cases c3 : u2.length < 3
  · simp [register, c3]
  · by_cases c6 : p2.length < 6
    · simp [register, c3, c6]
    · simp [register, c3, c6, hw]

/-- C3: registration fails for a username shorter than 3 characters, a
password shorter than 6 characters, or an existing lowercased-username
key (so a second registration in any casing fails); otherwise it creates
the user record keyed by the lowercased username with the stored digest
and empty `noteIds`, and succeeds. -/
theorem C3_registration_rules (hash : String → String) (st : Store) (u p : String) :
    (u.length < 3 →
      register hash st (some (JVal.str u)) (some (JVal.str p))
        = (RegisterResult.badReq "Kullanıcı adı en az 3 karakter olmalıdır.", st)) ∧
    (3 ≤ u.length → p.length < 6 →
      register hash st (some (JVal.str u)) (some (JVal.str p))
        = (RegisterResult.badReq "Şifre en az 6 karakter olmalıdır.", st)) ∧
    (3 ≤ u.length → 6 ≤ p.length → ∀ w, st.users (lowerString u) = some w →
      register hash st (some (JVal.str u)) (some (JVal.str p))
        = (RegisterResult.badReq "Bu kullanıcı adı zaten alınmış.", st)) ∧
    (3 ≤ u.length → 6 ≤ p.length → st.users (lowerString u) = none →
      (register hash st (some (JVal.str u)) (some (JVal.str p))).1 = RegisterResult.ok ∧
      (register hash st (some (JVal.str u)) (some (JVal.str p))).2.users (lowerString u)
        = some { id := lowerString u, username := u,
                 passwordHash := hash p, noteIds := [] } ∧
      ∀ u2 p2 : String, lowerString u2 = lowerString u →
        (register hash (register hash st (some (JVal.str u)) (some (JVal.str p))).2
            (some (JVal.str u2)) (some (JVal.str p2))).1 ≠ RegisterResult.ok) := by
  refine ⟨?_, ?_, ?_, ?_⟩
  · intro h3
    simp [register, h3]
  · intro h3 h6
    have hn3 : ¬ u.length < 3 := by omega
    simp [register, hn3, h6]
  · intro h3 h6 w hw
    have hn3 : ¬ u.length < 3 := by omega
    have hn6 : ¬ p.length < 6 := by omega
    simp [register, hn3, hn6, hw]
  · intro h3 h6 hnone
    have hn3 : ¬ u.length < 3 := by omega
    have hn6 : ¬ p.length < 6 := by omega
    refine ⟨by simp [register, hn3, hn6, hnone], by simp [register, hn3, hn6, hnone, Store.putUser], ?_⟩
    intro u2 p2 heq
    have hsome :
        (register hash st (some (JVal.str u)) (some (JVal.str p))).2.users (lowerString u2)
          = some { id := lowerString u, username := u,
                   passwordHash := hash p, noteIds := [] } := by
      simp [register, hn3, hn6, hnone, Store.putUser, heq]
    exact register_taken_ne_ok hash _ u2 p2 _ hsome

/-- Witness for C3: fresh registration of `Alice` succeeds, stores the
record under `alice`, and a second registration as `ALICE` fails. -/
theorem C3_witness :
    (3 ≤ ("Alice" : String).length ∧ 6 ≤ ("secret1" : String).length ∧
      emptyStore.users (lowerString "Alice") = none) ∧
    (register hId emptyStore (some (JVal.str "Alice")) (some (JVal.str "secret1"))).1
      = RegisterResult.ok ∧
    (register hId emptyStore (some (JVal.str "Alice")) (some (JVal.str "secret1"))).2.users
        (lowerString "Alice")
      = some { id := lowerString "Alice", username := "Alice",
               passwordHash := hId "secret1", noteIds := [] } ∧
    (register hId
        (register hId emptyStore (some (JVal.str "Alice")) (some (JVal.str "secret1"))).2
        (some (JVal.str "ALICE")) (some (JVal.str "other99"))).1 ≠ RegisterResult.ok := by
  have h := (C3_registration_rules hId emptyStore "Alice" "secret1").2.2.2
    (by decide) (by decide) (by decide)
  exact ⟨⟨by decide, by decide, by decide⟩, h.1, h.2.1, h.2.2 "ALICE" "other99" (by decide)⟩

/-- C4: `noteIds` behaves as a set under note creation: adding never
introduces duplicates, re-adding a present id changes nothing, adding a
fresh id appends it, and adding N pairwise-distinct fresh ids grows the
collection by exactly N. -/
theorem C4_noteIds_set_semantics (u : UserRecord) (noteId : String)
    (hnd : u.noteIds.Nodup) :
    (u.addNoteId noteId).noteIds.Nodup ∧
    (noteId ∈ u.noteIds → (u.addNoteId noteId).noteIds = u.noteIds) ∧
    (noteId ∉ u.noteIds → (u.addNoteId noteId).noteIds = u.noteIds ++ [noteId]) ∧
    (∀ ids : List String, (List.foldl UserRecord.addNoteId u ids).noteIds.Nodup) ∧
    (∀ ids : List String, ids.Nodup → (∀ i ∈ ids, i ∉ u.noteIds) →
      (List.foldl UserRecord.addNoteId u ids).noteIds.length
        = u.noteIds.length + ids.length) := by
  refine ⟨addNoteId_nodup u noteId,
    fun h => addNoteId_of_mem hnd h,
    fun h => addNoteId_of_not_mem hnd h,
    fun ids => foldl_addNoteId_nodup ids u hnd,
    fun ids h1 h2 => ?_⟩
  rw [foldl_addNoteId_fresh ids u hnd h1 h2]
  simp

/-- Witness for C4: re-adding `n1` to `alice` leaves `noteIds` as is,
and folding in two fresh distinct ids grows it from 2 to 4. -/
theorem C4_witness :
    aliceU.noteIds.Nodup ∧
    (aliceU.addNoteId "n1").noteIds = aliceU.noteIds ∧
    (List.foldl UserRecord.addNoteId aliceU ["a1", "a2"]).noteIds.length
      = aliceU.noteIds.length + 2 := by
  have h := C4_noteIds_set_semantics aliceU "n1" (by decide)
  exact ⟨by decide, h.2.1 (by decide),
    h.2.2.2.2 ["a1", "a2"] (by decide) (by decide)⟩

/-- The middleware accepts matching credentials and exposes the
lowercased user id with the resolved record. -/
theorem authenticateUser_ok (hash : String → String) (st : Store) (u p : String)
    (user : UserRecord) (hu : st.users (lowerString u) = some user)
    (hp : user.passwordHash = hash p) :
    authenticateUser hash st (some (JVal.str u)) (some (JVal.str p))
      = Except.ok (lowerString u, user) := by
  simp [authenticateUser, hu, hp]

/-- C5: an authenticated note creation returns a note carrying the fresh
id, the default title and placeholder content, equal creation and update
timestamps, and the authenticated user id as owner; the record is
persisted and its id is appended to the owner's `noteIds`. -/
theorem C5_create_note_defaults (hash : String → String) (st : Store)
    (u p noteId now : String) (user : UserRecord)
    (hu : st.users (lowerString u) = some user)
    (hp : user.passwordHash = hash p)
    (hfresh : st.notes noteId = none) :
    (createNote hash st (some (JVal.str u)) (some (JVal.str p)) noteId now).1
      = CreateNoteResult.ok
          { id := noteId, title := "İsimsiz Not",
            content := "Yeni notunuzu buraya yazın...",
            userId := lowerString u, createdAt := now, updatedAt := now } ∧
    (createNote hash st (some (JVal.str u)) (some (JVal.str p)) noteId now).2.notes noteId
      = some { id := noteId, title := "İsimsiz Not",
               content := "Yeni notunuzu buraya yazın...",
               userId := lowerString u, createdAt := now, updatedAt := now } ∧
    ∃ u2 : UserRecord,
      (createNote hash st (some (JVal.str u)) (some (JVal.str p)) noteId now).2.users
          (lowerString u) = some u2 ∧
      noteId ∈ u2.noteIds ∧ ∀ i ∈ user.noteIds, i ∈ u2.noteIds := by
  have hauth := authenticateUser_ok hash st u p user hu hp
  refine ⟨by simp [createNote, hauth, hfresh],
    by simp [createNote, hauth, hfresh, Store.addNoteId, Store.mutUser,
      Store.putUser, Store.putNote],
    ⟨user.addNoteId noteId, ?_, ?_, ?_⟩⟩
  · simp [createNote, hauth, hfresh, Store.addNoteId, Store.mutUser,
      Store.putUser, Store.putNote, hu]
  · simp [UserRecord.addNoteId, jsSetDedup_mem]
  · intro i hi
    simp only [UserRecord.addNoteId, jsSetDedup_mem, List.mem_append,
      List.mem_singleton]
    exact Or.inl hi

/-- Witness for C5: `alice` creates a note with the fresh id `n9`. -/
theorem C5_witness :
    st1.users (lowerString "alice") = some aliceU ∧
    st1.notes "n9" = none ∧
    (createNote hId st1 (some (JVal.str "alice")) (some (JVal.str "secret1"))
        "n9" "2024-02-02T00:00:00Z").1
      = CreateNoteResult.ok
          { id := "n9", title := "İsimsiz Not",
            content := "Yeni notunuzu buraya yazın...",
            userId := lowerString "alice", createdAt := "2024-02-02T00:00:00Z",
            updatedAt := "2024-02-02T00:00:00Z" } := by
  have h := C5_create_note_defaults hId st1 "alice" "secret1" "n9"
    "2024-02-02T00:00:00Z" aliceU (by decide) rfl (by decide)
  exact ⟨by decide, by decide, h.1⟩

/-- The note produced by the update handler's `patch`: the provided
string fields merged over the current state, `updatedAt` refreshed. -/
def patchNote (ns : Note) (title content : Option JVal) (now : String) : Note :=
  { ns with
    title := match title with
      | some (JVal.str t) => t
      | _ => ns.title,
    content := match content with
      | some (JVal.str c) => c
      | _ => ns.content,
    updatedAt := now }

/-- Characterisation of a successful note update. -/
theorem updateNote_ok_eq (hash : String → String) (st : Store)
    (u p noteId now : String) (title content : Option JVal)
    (user : UserRecord) (ns : Note)
    (hu : st.users (lowerString u) = some user)
    (hp : user.passwordHash = hash p)
    (hn : st.notes noteId = some ns)
    (hown : ns.userId = lowerString u) :
    updateNote hash st (some (JVal.str u)) (some (JVal.str p)) noteId title content now
      = (UpdateResult.ok (patchNote ns title content now),
         st.putNote noteId (patchNote ns title content now)) := by
  have hauth := authenticateUser_ok hash st u p user hu hp
  simp [updateNote, hauth, hn, hown, patchNote]

/-- C6: a successful update keeps `createdAt`, `id` and `userId`, writes
a provided string `title` / `content` and otherwise keeps the previous
value, and always refreshes `updatedAt` to the current time, which is at
least the previous `updatedAt`. -/
theorem C6_update_frame (hash : String → String) (st : Store)
    (u p noteId now : String) (title content : Option JVal)
    (user : UserRecord) (ns : Note)
    (hu : st.users (lowerString u) = some user)
    (hp : user.passwordHash = hash p)
    (hn : st.notes noteId = some ns)
    (hown : ns.userId = lowerString u)
    (hclock : ns.updatedAt ≤ now) :
    ∃ n2 : Note,
      (updateNote hash st (some (JVal.str u)) (some (JVal.str p))
          noteId title content now).1 = UpdateResult.ok n2 ∧
      (updateNote hash st (some (JVal.str u)) (some (JVal.str p))
          noteId title content now).2.notes noteId = some n2 ∧
      n2.createdAt = ns.createdAt ∧ n2.id = ns.id ∧ n2.userId = ns.userId ∧
      (∀ t, title = some (JVal.str t) → n2.title = t) ∧
      ((∀ t, title ≠ some (JVal.str t)) → n2.title = ns.title) ∧
      (∀ c, content = some (JVal.str c) → n2.content = c) ∧
      ((∀ c, content ≠ some (JVal.str c)) → n2.content = ns.content) ∧
      n2.updatedAt = now ∧ ns.updatedAt ≤ n2.updatedAt := by
  have heq := updateNote_ok_eq hash st u p noteId now title content user ns hu hp hn hown
  refine ⟨patchNote ns title content now, by rw [heq],
    by rw [heq]; simp [Store.putNote], rfl, rfl, rfl, ?_, ?_, ?_, ?_, rfl, hclock⟩
  · intro t ht
    subst ht
    rfl
  · intro ht
    rcases title with _ | v
    · rfl
    · rcases v with s | n | b | _ | _
      · exact absurd rfl (ht s)
      all_goals rfl
  · intro c hc
    subst hc
    rfl
  · intro hc
    rcases content with _ | v
    · rfl
    · rcases v with s | n | b | _ | _
      · exact absurd rfl (hc s)
      all_goals rfl

/-- Witness for C6: updating `n1` with title `Shopping` and no content
keeps `createdAt` and the content, and refreshes `updatedAt`. -/
theorem C6_witness :
    st1.notes "n1" = some noteA ∧ noteA.userId = lowerString "alice" ∧
    noteA.updatedAt ≤ "2024-01-01T00:00:00Z" ∧
    ∃ n2 : Note,
      (updateNote hId st1 (some (JVal.str "alice")) (some (JVal.str "secret1")) "n1"
          (some (JVal.str "Shopping")) none "2024-01-01T00:00:00Z").1
        = UpdateResult.ok n2 ∧
      n2.createdAt = noteA.createdAt ∧ n2.title = "Shopping" ∧
      n2.content = noteA.content ∧ n2.updatedAt = "2024-01-01T00:00:00Z" := by
  have h := C6_update_frame hId st1 "alice" "secret1" "n1" "2024-01-01T00:00:00Z"
    (some (JVal.str "Shopping")) none aliceU noteA (by decide) rfl (by decide)
    (by decide) (le_of_eq (by decide))
  obtain ⟨n2, h1, h2, h3, h4, h5, h6, h7, h8, h9, h10, h11⟩ := h
  refine ⟨by decide, by decide, le_of_eq (by decide), n2, h1, h3, h6 "Shopping" rfl,
    h9 ?_, h10⟩
  intro c hc
  exact Option.noConfusion hc

/-- C7: update and delete on a missing note id fail with the not-found
error, and on a note owned by someone else fail with the forbidden
error; in both cases the store (hence the note record) is unchanged. -/
theorem C7_update_delete_notfound_forbidden (hash : String → String) (st : Store)
    (u p noteId now : String) (title content : Option JVal) (user : UserRecord)
    (hu : st.users (lowerString u) = some user)
    (hp : user.passwordHash = hash p) :
    (st.notes noteId = none →
      updateNote hash st (some (JVal.str u)) (some (JVal.str p)) noteId title content now
        = (UpdateResult.notFound "Not bulunamadı.", st) ∧
      deleteNote hash st (some (JVal.str u)) (some (JVal.str p)) noteId
        = (DeleteResult.notFound "Not bulunamadı.", st)) ∧
    (∀ ns : Note, st.notes noteId = some ns → ns.userId ≠ lowerString u →
      updateNote hash st (some (JVal.str u)) (some (JVal.str p)) noteId title content now
        = (UpdateResult.forbidden "Yetkisiz işlem.", st) ∧
      deleteNote hash st (some (JVal.str u)) (some (JVal.str p)) noteId
        = (DeleteResult.forbidden "Yetkisiz işlem.", st)) := by
  have hauth := authenticateUser_ok hash st u p user hu hp
  constructor
  · intro hmiss
    exact ⟨by simp [updateNote, hauth, hmiss], by simp [deleteNote, hauth, hmiss]⟩
  · intro ns hn hne
    exact ⟨by simp [updateNote, hauth, hn, hne],
      by simp [deleteNote, hauth, hn, hne]⟩

/-- Witness for C7: a missing id `nx` yields not-found; `bob`'s note
`n2` yields forbidden for `alice`; the store is returned unchanged. -/
theorem C7_witness :
    st1.notes "nx" = none ∧
    st1.notes "n2" = some noteB ∧ noteB.userId ≠ lowerString "alice" ∧
    updateNote hId st1 (some (JVal.str "alice")) (some (JVal.str "secret1")) "nx"
        none none "2024-03-03T00:00:00Z"
      = (UpdateResult.notFound "Not bulunamadı.", st1) ∧
    deleteNote hId st1 (some (JVal.str "alice")) (some (JVal.str "secret1")) "n2"
      = (DeleteResult.forbidden "Yetkisiz işlem.", st1) := by
  have h := C7_update_delete_notfound_forbidden hId st1 "alice" "secret1" "nx"
    "2024-03-03T00:00:00Z" none none aliceU (by decide) rfl
  have h2 := C7_update_delete_notfound_forbidden hId st1 "alice" "secret1" "n2"
    "2024-03-03T00:00:00Z" none none aliceU (by decide) rfl
  exact ⟨by decide, by decide, by decide, (h.1 (by decide)).1,
    (h2.2 noteB (by decide) (by decide)).2⟩

/-- C8: a successful deletion by the owner removes the note record and
the id from the owner's `noteIds`, acknowledges success, and a
subsequent login by that owner no longer includes the deleted note. -/
theorem C8_delete_note (hash : String → String) (st : Store)
    (u p noteId : String) (user : UserRecord) (ns : Note)
    (hu : st.users (lowerString u) = some user)
    (hp : user.passwordHash = hash p)
    (hn : st.notes noteId = some ns)
    (hown : ns.userId = lowerString u)
    (hwf : ∀ (k : String) (n : Note), st.notes k = some n → n.id = k) :
    (deleteNote hash st (some (JVal.str u)) (some (JVal.str p)) noteId).1
      = DeleteResult.ok ∧
    (deleteNote hash st (some (JVal.str u)) (some (JVal.str p)) noteId).2.notes noteId
      = none ∧
    (∃ u2 : UserRecord,
      (deleteNote hash st (some (JVal.str u)) (some (JVal.str p)) noteId).2.users
          (lowerString u) = some u2 ∧ noteId ∉ u2.noteIds) ∧
    (∃ notes2 : List Note,
      login hash (deleteNote hash st (some (JVal.str u)) (some (JVal.str p)) noteId).2
          (some (JVal.str u)) (some (JVal.str p))
        = LoginResult.ok user.username notes2 ∧
      ∀ n ∈ notes2, n.id ≠ noteId) := by
  have hauth := authenticateUser_ok hash st u p user hu hp
  have hst2u :
      (deleteNote hash st (some (JVal.str u)) (some (JVal.str p)) noteId).2.users
          (lowerString u) = some (user.removeNoteId noteId) := by
    simp [deleteNote, hauth, hn, hown, Store.removeNoteId, Store.mutUser,
      Store.putUser, Store.delNote, hu]
  have hst2n : ∀ q : String,
      (deleteNote hash st (some (JVal.str u)) (some (JVal.str p)) noteId).2.notes q
        = if q = noteId then none else st.notes q := by
    intro q
    simp [deleteNote, hauth, hn, hown, Store.removeNoteId, Store.mutUser,
      Store.putUser, Store.delNote]
  refine ⟨by simp [deleteNote, hauth, hn, hown], by rw [hst2n]; simp,
    ⟨user.removeNoteId noteId, hst2u,
      by simp [UserRecord.removeNoteId, List.mem_filter]⟩, ?_⟩
  refine ⟨(user.removeNoteId noteId).noteIds.filterMap
      (deleteNote hash st (some (JVal.str u)) (some (JVal.str p)) noteId).2.notes,
    ?_, ?_⟩
  · have hph : (user.removeNoteId noteId).passwordHash = hash p := hp
    simp [login, hst2u, hph, UserRecord.removeNoteId, hp]
  · intro n hnmem
    obtain ⟨i, hi, hieq⟩ := List.mem_filterMap.mp hnmem
    rw [hst2n i] at hieq
    by_cases hiq : i = noteId
    · rw [if_pos hiq] at hieq
      exact absurd hieq (by simp)
    · rw [if_neg hiq] at hieq
      intro hcontra
      exact hiq ((hwf i n hieq).symm.trans hcontra)

/-- Witness for C8: `alice` deletes `n1`; the record is gone, the id is
gone from her `noteIds`, and a fresh login omits the note. -/
theorem C8_witness :
    st1.notes "n1" = some noteA ∧ noteA.userId = lowerString "alice" ∧
    (deleteNote hId st1 (some (JVal.str "alice")) (some (JVal.str "secret1")) "n1").1
      = DeleteResult.ok ∧
    (deleteNote hId st1 (some (JVal.str "alice")) (some (JVal.str "secret1")) "n1").2.notes
        "n1" = none ∧
    (∃ notes2 : List Note,
      login hId (deleteNote hId st1 (some (JVal.str "alice"))
            (some (JVal.str "secret1")) "n1").2
          (some (JVal.str "alice")) (some (JVal.str "secret1"))
        = LoginResult.ok aliceU.username notes2 ∧
      ∀ n ∈ notes2, n.id ≠ "n1") := by
  have hwf1 : ∀ (k : String) (n : Note), st1.notes k = some n → n.id = k := by
    intro k n h
    simp only [st1, Store.putNote, Store.putUser, emptyStore] at h
    by_cases h2 : k = "n2"
    · simp only [h2, if_pos] at h
      cases h
      rw [h2]
      rfl
    · by_cases h1 : k = "n1"
      · simp only [h2, if_neg, h1, if_pos, if_true, if_false] at h
        cases h
        rw [h1]
        rfl
      · simp [h2, h1] at h
  have h := C8_delete_note hId st1 "alice" "secret1" "n1" aliceU noteA
    (by decide) rfl (by decide) (by decide) hwf1
  exact ⟨by decide, by decide, h.1, h.2.1, h.2.2.2⟩

/-- C9: password change requires authenticating with the current
password, rejects a new password under 6 characters, and on success
replaces only the stored digest, after which the new password
authenticates and the old one (with a different digest) fails. -/
theorem C9_change_password_rules (hash : String → String) (st : Store)
    (u p np : String) (user : UserRecord)
    (hu : st.users (lowerString u) = some user)
    (hp : user.passwordHash = hash p) :
    (np.length < 6 →
      changePassword hash st (some (JVal.str u)) (some (JVal.str p)) (some (JVal.str np))
        = (ChangePwResult.badReq "Yeni şifre en az 6 karakter olmalıdır.", st)) ∧
    (6 ≤ np.length →
      (changePassword hash st (some (JVal.str u)) (some (JVal.str p))
          (some (JVal.str np))).1 = ChangePwResult.ok ∧
      (changePassword hash st (some (JVal.str u)) (some (JVal.str p))
          (some (JVal.str np))).2.users (lowerString u)
        = some { user with passwordHash := hash np } ∧
      authenticateUser hash
          (changePassword hash st (some (JVal.str u)) (some (JVal.str p))
            (some (JVal.str np))).2
          (some (JVal.str u)) (some (JVal.str np))
        = Except.ok (lowerString u, { user with passwordHash := hash np }) ∧
      (hash p ≠ hash np →
        authenticateUser hash
            (changePassword hash st (some (JVal.str u)) (some (JVal.str p))
              (some (JVal.str np))).2
            (some (JVal.str u)) (some (JVal.str p))
          = Except.error (AuthErr.badReq "Kullanıcı bulunamadı veya şifre yanlış."))) ∧
    (∀ (st2 : Store) (un pw npv : Option JVal) (e : AuthErr),
      authenticateUser hash st2 un pw = Except.error e →
      changePassword hash st2 un pw npv = (ChangePwResult.authFail e, st2)) := by
  have hauth := authenticateUser_ok hash st u p user hu hp
  refine ⟨?_, ?_, ?_⟩
  · intro h6
    simp [changePassword, hauth, h6]
  · intro h6
    have hn6 : ¬ np.length < 6 := by omega
    have husers :
        (changePassword hash st (some (JVal.str u)) (some (JVal.str p))
            (some (JVal.str np))).2.users (lowerString u)
          = some { user with passwordHash := hash np } := by
      simp [changePassword, hauth, hn6, Store.updatePasswordHash, Store.mutUser,
        Store.putUser, UserRecord.updatePasswordHash, hu]
    refine ⟨by simp [changePassword, hauth, hn6], husers,
      authenticateUser_ok hash _ u np { user with passwordHash := hash np } husers rfl,
      ?_⟩
    intro hneq
    have hnp : ({ user with passwordHash := hash np } : UserRecord).passwordHash ≠ hash p :=
      fun hc => hneq (hc.symm)
    simp [authenticateUser, husers, hnp]
  · intro st2 un pw npv e he
    simp [changePassword, he]

/-- Witness for C9: `alice` changes her password from `secret1` to
`newpass1`; a 3-character replacement is rejected; afterwards the new
password authenticates and the old fails. -/
theorem C9_witness :
    st1.users (lowerString "alice") = some aliceU ∧
    changePassword hId st1 (some (JVal.str "alice")) (some (JVal.str "secret1"))
        (some (JVal.str "np1"))
      = (ChangePwResult.badReq "Yeni şifre en az 6 karakter olmalıdır.", st1) ∧
    (changePassword hId st1 (some (JVal.str "alice")) (some (JVal.str "secret1"))
        (some (JVal.str "newpass1"))).1 = ChangePwResult.ok ∧
    authenticateUser hId
        (changePassword hId st1 (some (JVal.str "alice")) (some (JVal.str "secret1"))
          (some (JVal.str "newpass1"))).2
        (some (JVal.str "alice")) (some (JVal.str "newpass1"))
      = Except.ok (lowerString "alice", { aliceU with passwordHash := hId "newpass1" }) ∧
    authenticateUser hId
        (changePassword hId st1 (some (JVal.str "alice")) (some (JVal.str "secret1"))
          (some (JVal.str "newpass1"))).2
        (some (JVal.str "alice")) (some (JVal.str "secret1"))
      = Except.error (AuthErr.badReq "Kullanıcı bulunamadı veya şifre yanlış.") := by
  have hshort := (C9_change_password_rules hId st1 "alice" "secret1" "np1" aliceU
    (by decide) rfl).1 (by decide)
  have h := (C9_change_password_rules hId st1 "alice" "secret1" "newpass1" aliceU
    (by decide) rfl).2.1 (by decide)
  exact ⟨by decide, hshort, h.1, h.2.2.1, h.2.2.2 (by decide)⟩

/-- C10: a `title` or `content` body value that is not a string is
silently ignored by the update: the operation still succeeds, the
corresponding field keeps its previous value, and `updatedAt` (plus any
string-typed provided field) is the only change. -/
theorem C10_nonstring_fields_ignored (hash : String → String) (st : Store)
    (u p noteId now : String) (title content : Option JVal)
    (user : UserRecord) (ns : Note)
    (hu : st.users (lowerString u) = some user)
    (hp : user.passwordHash = hash p)
    (hn : st.notes noteId = some ns)
    (hown : ns.userId = lowerString u) :
    (∀ v : JVal, title = some v → (∀ s, v ≠ JVal.str s) →
      ∃ n2 : Note,
        (updateNote hash st (some (JVal.str u)) (some (JVal.str p))
            noteId title content now).1 = UpdateResult.ok n2 ∧
        n2.title = ns.title ∧ n2.id = ns.id ∧ n2.userId = ns.userId ∧
        n2.createdAt = ns.createdAt ∧ n2.updatedAt = now ∧
        (∀ c, content = some (JVal.str c) → n2.content = c) ∧
        ((∀ c, content ≠ some (JVal.str c)) → n2.content = ns.content)) ∧
    (∀ w : JVal, content = some w → (∀ s, w ≠ JVal.str s) →
      ∃ n2 : Note,
        (updateNote hash st (some (JVal.str u)) (some (JVal.str p))
            noteId title content now).1 = UpdateResult.ok n2 ∧
        n2.content = ns.content ∧ n2.id = ns.id ∧ n2.userId = ns.userId ∧
        n2.createdAt = ns.createdAt ∧ n2.updatedAt = now ∧
        (∀ t, title = some (JVal.str t) → n2.title = t) ∧
        ((∀ t, title ≠ some (JVal.str t)) → n2.title = ns.title)) := by
  have heq := updateNote_ok_eq hash st u p noteId now title content user ns hu hp hn hown
  constructor
  · intro v hv hns2
    refine ⟨patchNote ns title content now, by rw [heq], ?_, rfl, rfl, rfl, rfl,
      ?_, ?_⟩
    · subst hv
      rcases v with s | m | b | _ | _
      · exact absurd rfl (hns2 s)
      all_goals rfl
    · intro c hc
      subst hc
      rfl
    · intro hc
      rcases content with _ | w
      · rfl
      · rcases w with s | m | b | _ | _
        · exact absurd rfl (hc s)
        all_goals rfl
  · intro w hw hns2
    refine ⟨patchNote ns title content now, by rw [heq], ?_, rfl, rfl, rfl, rfl,
      ?_, ?_⟩
    · subst hw
      rcases w with s | m | b | _ | _
      · exact absurd rfl (hns2 s)
      all_goals rfl
    · intro t ht
      subst ht
      rfl
    · intro ht
      rcases title with _ | v
      · rfl
      · rcases v with s | m | b | _ | _
        · exact absurd rfl (ht s)
        all_goals rfl

/-- Witness for C10: a numeric `title` is ignored while a string
`content` is applied; only `content` and `updatedAt` change. -/
theorem C10_witness :
    st1.notes "n1" = some noteA ∧ noteA.userId = lowerString "alice" ∧
    ∃ n2 : Note,
      (updateNote hId st1 (some (JVal.str "alice")) (some (JVal.str "secret1")) "n1"
          (some (JVal.num 5)) (some (JVal.str "yeni içerik")) "2024-04-04T00:00:00Z").1
        = UpdateResult.ok n2 ∧
      n2.title = noteA.title ∧ n2.content = "yeni içerik" ∧
      n2.createdAt = noteA.createdAt ∧ n2.updatedAt = "2024-04-04T00:00:00Z" := by
  have h := (C10_nonstring_fields_ignored hId st1 "alice" "secret1" "n1"
      "2024-04-04T00:00:00Z" (some (JVal.num 5)) (some (JVal.str "yeni içerik"))
      aliceU noteA (by decide) rfl (by decide) (by decide)).1
    (JVal.num 5) rfl (by intro s hcon; exact JVal.noConfusion hcon)
  obtain ⟨n2, h1, h2, h3, h4, h5, h6, h7, h8⟩ := h
  exact ⟨by decide, by decide, n2, h1, h2, h7 "yeni içerik" rfl, h5, h6⟩
